import Mathlib

/-!
Shallow embedding of the source-distribution cache-and-build coordinator from
crates/puffin-distribution/src/source_dist.rs.

External capabilities (BuildContext, CachedClient, GitSource, the wheel-filename
parser, the zip metadata reader) are modelled as oracle fields of an `Env`
record; the filesystem is an explicit state threaded through every operation,
together with a trace of observable events (build-subprocess invocations, git
fetches, lock acquisitions).
-/

namespace SourceDistSpec

/-- Package names, as in puffin_normalize::PackageName. -/
abbrev PackageName := String

/-- Filesystem paths, modelled as lists of components. -/
abbrev FsPath := List String

/-- Structured wheel filename (distribution_filename::WheelFilename); its parser
and tag set live outside src/, so only its identity matters here. -/
structure WheelFilename where
  raw : String
deriving DecidableEq, Repr

/-- Core metadata read from a built wheel (pypi_types::Metadata21); the
coordinator only inspects the `name` field. -/
structure Metadata21 where
  name : PackageName
  body : String
deriving DecidableEq, Repr

/-- Pair of un-normalized on-disk wheel filename and its parsed metadata. -/
structure DiskFilenameAndMetadata where
  disk_filename : String
  metadata : Metadata21
deriving DecidableEq, Repr

/-- The FxHashMap from WheelFilename to DiskFilenameAndMetadata, modelled as an
association list in iteration order. -/
abbrev Metadata21s := List (WheelFilename × DiskFilenameAndMetadata)

/-- FxHashMap::insert: replace the value when the key is present, otherwise add
the new binding. -/
def insertWheel (m : Metadata21s) (k : WheelFilename) (v : DiskFilenameAndMetadata) :
    Metadata21s :=
  if m.any (fun kv => kv.1 == k) then
    m.map (fun kv => if kv.1 == k then (k, v) else kv)
  else
    m ++ [(k, v)]

/-- The information about the wheel we either just built or got from the cache. -/
structure BuiltWheelMetadata where
  path : FsPath
  filename : WheelFilename
  metadata : Metadata21
deriving DecidableEq, Repr

/-- A cache entry: leaf directory plus the name of the metadata sidecar file. -/
structure CacheEntry where
  dir : FsPath
  file : String
deriving DecidableEq, Repr

/-- CacheEntry::path, the full path of the sidecar file. -/
def CacheEntry.path (e : CacheEntry) : FsPath :=
  e.dir ++ [e.file]

/-- BuiltWheelMetadata::from_cached. -/
def BuiltWheelMetadata.from_cached (filename : WheelFilename)
    (cached_data : DiskFilenameAndMetadata) (cache_entry : CacheEntry) :
    BuiltWheelMetadata :=
  { path := cache_entry.dir ++ [cached_data.disk_filename]
    filename := filename
    metadata := cached_data.metadata }

/-- The DataWithCachePolicy envelope the CachedClient persists for HTTP-backed
entries. -/
structure DataWithCachePolicy where
  policy : String
  data : Metadata21s
deriving DecidableEq, Repr

/-- Contents of a file in the modelled filesystem.  Serde parsing of cached
bytes is total on this sum: the envelope shape parses only as an envelope, the
bare map shape only as a bare map, anything else fails. -/
inductive FileData where
  | httpEnvelope (policy : String) (data : Metadata21s)
  | gitMetadata (data : Metadata21s)
  | wheel
  | raw (s : String)
deriving DecidableEq, Repr

/-- serde_json::from_slice::<DataWithCachePolicy<Metadata21s>>. -/
def parseEnvelope : FileData → Except Unit DataWithCachePolicy
  | FileData.httpEnvelope policy data => Except.ok { policy := policy, data := data }
  | _ => Except.error ()

/-- serde_json::from_slice::<Metadata21s> (the bare map, Git branch). -/
def parseBareMetadata : FileData → Except Unit Metadata21s
  | FileData.gitMetadata data => Except.ok data
  | _ => Except.error ()

/-- The filesystem: a finite file map plus the set of created directories. -/
structure FS where
  files : List (FsPath × FileData)
  dirs : List FsPath
deriving DecidableEq, Repr

/-- fs::read, as an Option (None models the io::Error of a missing file). -/
def FS.read (fs : FS) (p : FsPath) : Option FileData :=
  (fs.files.find? (fun e => e.1 == p)).map (fun e => e.2)

/-- Path::is_file. -/
def FS.isFile (fs : FS) (p : FsPath) : Bool :=
  fs.files.any (fun e => e.1 == p)

/-- Path::exists: the path is an existing file, or an ancestor (or equal) of an
existing file or created directory. -/
def FS.pathExists (fs : FS) (p : FsPath) : Bool :=
  fs.files.any (fun e => p.isPrefixOf e.1) || fs.dirs.any (fun d => p.isPrefixOf d)

/-- fs::write (create or truncate). -/
def FS.write (fs : FS) (p : FsPath) (d : FileData) : FS :=
  { fs with files := (p, d) :: fs.files.filter (fun e => !(e.1 == p)) }

/-- fs::remove_dir_all: drop every file and directory at or below p. -/
def FS.removeDirAll (fs : FS) (p : FsPath) : FS :=
  { files := fs.files.filter (fun e => !(p.isPrefixOf e.1))
    dirs := fs.dirs.filter (fun d => !(p.isPrefixOf d)) }

/-- fs::create_dir_all. -/
def FS.createDirAll (fs : FS) (p : FsPath) : FS :=
  { fs with dirs := p :: fs.dirs }

/-- Observable events of a coordinator run. -/
inductive Ev where
  | buildSource (source : FsPath) (outDir : FsPath)
  | gitFetch (u : String)
  | lockAcquire (p : FsPath)
deriving DecidableEq, Repr

/-- Whether an event is an invocation of BuildContext::build_source. -/
def Ev.isBuild : Ev → Bool
  | Ev.buildSource _ _ => true
  | _ => false

/-- The build_source invocations within a trace. -/
def buildEvents (l : List Ev) : List Ev :=
  l.filter Ev.isBuild

/-- Mutable state threaded through the coordinator: filesystem, event trace,
and a counter naming fresh temporary directories. -/
structure St where
  fs : FS
  events : List Ev
  tmpCount : Nat
deriving DecidableEq, Repr

/-- distribution_types::SourceDist. -/
structure DistFile where
  url : String
  filename : String
deriving DecidableEq, Repr

inductive SourceDist where
  | Registry (name : PackageName) (file : DistFile) (index : String)
  | DirectUrl (name : PackageName) (url : String)
  | Git (name : PackageName) (url : String)
  | Path (name : PackageName) (path : FsPath)
deriving DecidableEq, Repr

/-- Modelled from the spec: `Identifier::distribution_id` (distribution_types,
not under src/) — a stable identifier derived from name and location. -/
def SourceDist.distribution_id : SourceDist → String
  | SourceDist.Registry name file _ => name ++ "-" ++ file.filename
  | SourceDist.DirectUrl name u => name ++ "-" ++ u
  | SourceDist.Git name u => name ++ "-" ++ u
  | SourceDist.Path name p => name ++ "-" ++ String.intercalate "/" p

/-- Cause of a failure inside build_source_dist (an anyhow error in the code). -/
inductive BuildCause where
  | bail (msg : String)
  | buildSourceFailed (msg : String)
  | badWheelFilename
  | metadataFailed
deriving DecidableEq, Repr

/-- The bail! message used when builds are disabled. -/
def disabledMsg : String := "Building source distributions is disabled"

/-- SourceDistError, mirroring the error enum of source_dist.rs. -/
inductive SourceDistError where
  | UrlParse (u : String)
  | Git (msg : String)
  | Request
  | Client
  | IoError
  | Serde
  | Build (dist : SourceDist) (cause : BuildCause)
  | WheelFilenameErr
  | NameMismatch (given : PackageName) (metadata : PackageName)
  | MetadataErr
  | Join
deriving DecidableEq, Repr

/-- Outcome of a coordinator call: success, error, or a Rust panic. -/
inductive Res (α : Type) where
  | ok (a : α)
  | err (e : SourceDistError)
  | panicked (msg : String)
deriving DecidableEq, Repr

/-- puffin_git::Fetch: the working-tree path and the resolved precise commit. -/
structure Fetch where
  path : FsPath
  precise : Option String
deriving DecidableEq, Repr

/-- Result of a successful build_source_dist. -/
structure BuildOk where
  disk_filename : String
  filename : WheelFilename
  metadata : Metadata21
deriving DecidableEq, Repr

/-- The external capabilities, as deterministic oracles. -/
structure Env where
  cacheRoot : FsPath
  no_build : Bool
  isCompatible : WheelFilename → Bool
  buildSourceResult : FsPath → Option FsPath → FsPath → Except String String
  parseWheelFilename : String → Except Unit WheelFilename
  wheelMetadataOf : FsPath → Except Unit Metadata21
  serverFresh : Bool
  cacheable : Bool
  uncachedOk : Bool
  downloadOk : Bool
  tempDirName : Nat → String
  policy : String
  directFilename : String → String
  directArchive : String → String × Option FsPath
  directGit : String → Except String (String × Option FsPath)
  gitFetch : String → Except String Fetch
  urlParse : String → Option String

/-- CacheBucket::BuiltWheels directory name. -/
def bucketBuiltWheels : String := "built-wheels"

/-- CacheBucket::Git directory name. -/
def bucketGit : String := "git"

/-- The metadata sidecar filename. -/
def METADATA_JSON : String := "metadata.json"

/-- Modelled from the spec: puffin_cache::CanonicalUrl (not under src/) —
normalization by trimming a trailing ".git"; the spec also mentions scheme
lowercasing, omitted here since no claim depends on the digest's concrete
form. -/
def canonicalUrl (u : String) : String :=
  if u.data.reverse.take 4 = ['t', 'i', 'g', '.'] then
    { data := u.data.take (u.data.length - 4) }
  else u

/-- Modelled from the spec: puffin_cache::digest (not under src/) — a stable
content digest of the canonical URL; no claim depends on its concrete form, so
it is modelled as the canonical string itself. -/
def digest (s : String) : String := s

/-- Modelled from the spec: puffin_cache::WheelCache (not under src/). The
shard encodes the provenance and built_wheel_dir appends the sdist filename
(resp. the commit SHA for Git). -/
inductive WheelCache where
  | Url (u : String)
  | Index (index : String)
  | Git (u : String)
deriving DecidableEq, Repr

/-- Modelled from the spec: WheelCache::built_wheel_dir, the shard-relative
directory for one sdist: url/<digest>/<filename>, index/<digest>/<filename>,
git/<digest>/<filename>. -/
def WheelCache.built_wheel_dir : WheelCache → String → FsPath
  | WheelCache.Url u, filename => ["url", digest (canonicalUrl u), filename]
  | WheelCache.Index i, filename => ["index", digest (canonicalUrl i), filename]
  | WheelCache.Git u, filename => ["git", digest (canonicalUrl u), filename]

/-- Metadata21s::iter().find(|(filename, _)| filename.is_compatible(tags)). -/
def findCompatible (env : Env) (m : Metadata21s) :
    Option (WheelFilename × DiskFilenameAndMetadata) :=
  m.find? (fun kv => env.isCompatible kv.1)

/-- build_source_dist: bail when builds are disabled, create the cache leaf
directory, invoke BuildContext::build_source, drop the temp dir, parse the disk
filename, read the wheel metadata. -/
def build_source_dist (env : Env) (_dist : SourceDist) (temp_dir : Option FsPath)
    (source_dist : FsPath) (subdirectory : Option FsPath) (cache_entry : CacheEntry)
    (st : St) : Except BuildCause BuildOk × St :=
  if env.no_build then (Except.error (BuildCause.bail disabledMsg), st) else
  let st1 : St := { st with fs := st.fs.createDirAll cache_entry.dir }
  let st2 : St := { st1 with
    events := st1.events ++ [Ev.buildSource source_dist cache_entry.dir] }
  match env.buildSourceResult source_dist subdirectory cache_entry.dir with
  | Except.error e => (Except.error (BuildCause.buildSourceFailed e), st2)
  | Except.ok disk_filename =>
    let st3 : St := { st2 with
      fs := st2.fs.write (cache_entry.dir ++ [disk_filename]) FileData.wheel }
    let st4 : St :=
      match temp_dir with
      | some td => { st3 with fs := st3.fs.removeDirAll td }
      | none => st3
    match env.parseWheelFilename disk_filename with
    | Except.error _ => (Except.error BuildCause.badWheelFilename, st4)
    | Except.ok filename =>
      match env.wheelMetadataOf (cache_entry.dir ++ [disk_filename]) with
      | Except.error _ => (Except.error BuildCause.metadataFailed, st4)
      | Except.ok metadata =>
        (Except.ok { disk_filename := disk_filename, filename := filename,
                     metadata := metadata }, st4)

/-- download_source_dist_url: stream the response body into a fresh temp
directory inside the built-wheels bucket. -/
def download_source_dist_url (env : Env) (filename : String) (st : St) :
    Except SourceDistError (FsPath × FsPath) × St :=
  if env.downloadOk then
    let bucket := env.cacheRoot ++ [bucketBuiltWheels]
    let fs1 := st.fs.createDirAll bucket
    let temp := bucket ++ [env.tempDirName st.tmpCount]
    let fs2 := fs1.createDirAll temp
    let sdist_file := temp ++ [filename]
    let fs3 := fs2.write sdist_file (FileData.raw filename)
    (Except.ok (temp, sdist_file),
      { st with fs := fs3, tmpCount := st.tmpCount + 1 })
  else
    (Except.error SourceDistError.Client, st)

/-- The dir-clearing step at the top of the HTTP response callback: a changed
source distribution invalidates all previously built wheels. -/
def clearWheels (fs : FS) (dir : FsPath) : FS :=
  if fs.pathExists dir then fs.removeDirAll dir else fs

/-- The response callback handed to CachedClient::get_cached_with_callback:
clear stale artifacts, download, build once, return the singleton map. -/
def response_callback (env : Env) (source_dist : SourceDist) (filename : String)
    (subdirectory : Option FsPath) (cache_entry : CacheEntry) (st : St) :
    Except SourceDistError Metadata21s × St :=
  let st1 : St := { st with fs := clearWheels st.fs cache_entry.dir }
  match download_source_dist_url env filename st1 with
  | (Except.error e, st2) => (Except.error e, st2)
  | (Except.ok (temp_dir, sdist_file), st2) =>
    match build_source_dist env source_dist (some temp_dir) sdist_file subdirectory
        cache_entry st2 with
    | (Except.error cause, st3) =>
      (Except.error (SourceDistError.Build source_dist cause), st3)
    | (Except.ok b, st3) =>
      (Except.ok (insertWheel [] b.filename
        { disk_filename := b.disk_filename, metadata := b.metadata }), st3)

/-- Modelled from the spec: CachedClient::get_cached_with_callback
(puffin_client, not under src/).  The callback runs only when the server body
is fresh; its return value is persisted as an envelope together with the HTTP
cache policy when the response is cacheable; a 304 reuses the persisted data. -/
def get_cached_with_callback (env : Env) (source_dist : SourceDist)
    (filename : String) (subdirectory : Option FsPath) (cache_entry : CacheEntry)
    (st : St) : Except SourceDistError Metadata21s × St :=
  if env.serverFresh then
    match response_callback env source_dist filename subdirectory cache_entry st with
    | (Except.error e, st1) => (Except.error e, st1)
    | (Except.ok metadatas, st1) =>
      if env.cacheable then
        let fs1 := (st1.fs.createDirAll cache_entry.dir).write
          (CacheEntry.path cache_entry) (FileData.httpEnvelope env.policy metadatas)
        (Except.ok metadatas, { st1 with fs := fs1 })
      else
        (Except.ok metadatas, st1)
  else
    match st.fs.read (CacheEntry.path cache_entry) with
    | some (FileData.httpEnvelope _ data) => (Except.ok data, st)
    | _ => (Except.error SourceDistError.Client, st)

/-- The read-modify-write of the existing metadata.json on the stale-artifact
path (lines 344-357): a failed read is skipped, but deserialization and
write-back errors propagate. -/
def persistStale (fs : FS) (cache_entry : CacheEntry) (wheel_filename : WheelFilename)
    (cached_data : DiskFilenameAndMetadata) : Except SourceDistError FS :=
  match fs.read (CacheEntry.path cache_entry) with
  | none => Except.ok fs
  | some c =>
    match parseEnvelope c with
    | Except.error _ => Except.error SourceDistError.Serde
    | Except.ok cached =>
      let cached2 : DataWithCachePolicy :=
        { cached with data := insertWheel cached.data wheel_filename cached_data }
      Except.ok (fs.write (CacheEntry.path cache_entry)
        (FileData.httpEnvelope cached2.policy cached2.data))

/-- The stale-artifact-but-fresh-body tail of url: uncached GET, download,
build, best-effort persist, return the newly built wheel. -/
def urlStale (env : Env) (source_dist : SourceDist) (filename : String)
    (subdirectory : Option FsPath) (cache_entry : CacheEntry) (st : St) :
    Res BuiltWheelMetadata × St :=
  if env.uncachedOk then
    match download_source_dist_url env filename st with
    | (Except.error e, st1) => (Res.err e, st1)
    | (Except.ok (temp_dir, sdist_file), st1) =>
      match build_source_dist env source_dist (some temp_dir) sdist_file
          subdirectory cache_entry st1 with
      | (Except.error cause, st2) =>
        (Res.err (SourceDistError.Build source_dist cause), st2)
      | (Except.ok b, st2) =>
        let cached_data : DiskFilenameAndMetadata :=
          { disk_filename := b.disk_filename, metadata := b.metadata }
        match persistStale st2.fs cache_entry b.filename cached_data with
        | Except.error e => (Res.err e, st2)
        | Except.ok fs2 =>
          (Res.ok (BuiltWheelMetadata.from_cached b.filename cached_data cache_entry),
            { st2 with fs := fs2 })
  else
    (Res.err SourceDistError.Client, st)

/-- The cache entry consulted by the HTTP branch. -/
def urlCacheEntry (env : Env) (cache_shard : WheelCache) (filename : String) :
    CacheEntry :=
  { dir := env.cacheRoot ++ [bucketBuiltWheels] ++
      WheelCache.built_wheel_dir cache_shard filename
    file := METADATA_JSON }

/-- The HTTP-backed branch of download_and_build (fn url in source_dist.rs). -/
def url (env : Env) (source_dist : SourceDist) (filename : String) (_u : String)
    (cache_shard : WheelCache) (subdirectory : Option FsPath) (st : St) :
    Res BuiltWheelMetadata × St :=
  let cache_entry := urlCacheEntry env cache_shard filename
  match get_cached_with_callback env source_dist filename subdirectory cache_entry st with
  | (Except.error e, st1) => (Res.err e, st1)
  | (Except.ok metadatas, st1) =>
    match findCompatible env metadatas with
    | some (fn, cached_data) =>
      (Res.ok (BuiltWheelMetadata.from_cached fn cached_data cache_entry), st1)
    | none => urlStale env source_dist filename subdirectory cache_entry st1

/-- download_source_dist_git: take the per-URL lock under git/locks, parse the
URL, fetch on a blocking worker. -/
def download_source_dist_git (env : Env) (u : String) (st : St) :
    Except SourceDistError (Fetch × Option FsPath) × St :=
  let git_dir := env.cacheRoot ++ [bucketGit]
  let locks_dir := git_dir ++ ["locks"]
  let st1 : St := { st with fs := st.fs.createDirAll locks_dir }
  let st2 : St := { st1 with
    events := st1.events ++ [Ev.lockAcquire (locks_dir ++ [digest (canonicalUrl u)])] }
  match env.directGit u with
  | Except.error m => (Except.error (SourceDistError.Git m), st2)
  | Except.ok (u2, subdirectory) =>
    let st3 : St := { st2 with events := st2.events ++ [Ev.gitFetch u2] }
    match env.gitFetch u2 with
    | Except.error m => (Except.error (SourceDistError.Git m), st3)
    | Except.ok fetch => (Except.ok (fetch, subdirectory), st3)

/-- The cache entry consulted by the Git branch: shard WheelCache::Git(url),
leaf the resolved commit SHA. -/
def gitCacheEntry (env : Env) (u : String) (git_sha : String) : CacheEntry :=
  { dir := env.cacheRoot ++ [bucketBuiltWheels] ++
      WheelCache.built_wheel_dir (WheelCache.Git u) git_sha
    file := METADATA_JSON }

/-- The Git branch after the fetch: expect the precise commit (panicking when
absent), consult the cache, build, check the name, persist the bare map. -/
def gitAfterFetch (env : Env) (source_dist : SourceDist) (name : PackageName)
    (u : String) (fetch : Fetch) (subdirectory : Option FsPath) (st : St) :
    Res BuiltWheelMetadata × St :=
  match fetch.precise with
  | none => (Res.panicked "Exact commit after checkout", st)
  | some git_sha =>
    let cache_entry := gitCacheEntry env u git_sha
    let cachedStep : Except SourceDistError (Option BuiltWheelMetadata × Metadata21s) :=
      if st.fs.isFile (CacheEntry.path cache_entry) then
        match st.fs.read (CacheEntry.path cache_entry) with
        | none => Except.error SourceDistError.IoError
        | some c =>
          match parseBareMetadata c with
          | Except.error _ => Except.error SourceDistError.Serde
          | Except.ok metadatas =>
            match findCompatible env metadatas with
            | some (fn, cached_data) =>
              Except.ok (some (BuiltWheelMetadata.from_cached fn cached_data cache_entry),
                metadatas)
            | none => Except.ok (none, metadatas)
      else
        Except.ok (none, [])
    match cachedStep with
    | Except.error e => (Res.err e, st)
    | Except.ok (some bw, _) => (Res.ok bw, st)
    | Except.ok (none, metadatas) =>
      match build_source_dist env source_dist none fetch.path subdirectory
          cache_entry st with
      | (Except.error cause, st1) =>
        (Res.err (SourceDistError.Build source_dist cause), st1)
      | (Except.ok b, st1) =>
        if b.metadata.name == name then
          let metadatas2 := insertWheel metadatas b.filename
            { disk_filename := b.disk_filename, metadata := b.metadata }
          let fs1 := (st1.fs.createDirAll cache_entry.dir).write
            (CacheEntry.path cache_entry) (FileData.gitMetadata metadatas2)
          (Res.ok { path := cache_entry.dir ++ [b.disk_filename],
                    filename := b.filename, metadata := b.metadata },
            { st1 with fs := fs1 })
        else
          (Res.err (SourceDistError.NameMismatch name b.metadata.name), st1)

/-- The Git branch of download_and_build (fn git in source_dist.rs). -/
def git (env : Env) (source_dist : SourceDist) (name : PackageName) (u : String)
    (st : St) : Res BuiltWheelMetadata × St :=
  match download_source_dist_git env u st with
  | (Except.error e, st1) => (Res.err e, st1)
  | (Except.ok (fetch, subdirectory), st1) =>
    gitAfterFetch env source_dist name u fetch subdirectory st1

/-- download_and_build: dispatch on the SourceDist variant.  Note that the Path
branch invokes BuildContext::build_source directly, without the no_build guard
of build_source_dist. -/
def download_and_build (env : Env) (source_dist : SourceDist) (st : St) :
    Res BuiltWheelMetadata × St :=
  match source_dist with
  | SourceDist.DirectUrl _ u0 =>
    let filename := env.directFilename u0
    let p := env.directArchive u0
    url env source_dist filename p.1 (WheelCache.Url p.1) p.2 st
  | SourceDist.Registry _ file index =>
    match env.urlParse file.url with
    | none => (Res.err (SourceDistError.UrlParse file.url), st)
    | some u => url env source_dist file.filename u (WheelCache.Index index) none st
  | SourceDist.Git name u => git env source_dist name u st
  | SourceDist.Path _ p =>
    let wheel_dir := env.cacheRoot ++
      [bucketBuiltWheels, SourceDist.distribution_id source_dist]
    let st1 : St := { st with fs := st.fs.createDirAll wheel_dir }
    let st2 : St := { st1 with events := st1.events ++ [Ev.buildSource p wheel_dir] }
    match env.buildSourceResult p none wheel_dir with
    | Except.error e =>
      (Res.err (SourceDistError.Build source_dist (BuildCause.buildSourceFailed e)), st2)
    | Except.ok disk_filename =>
      let st3 : St := { st2 with
        fs := st2.fs.write (wheel_dir ++ [disk_filename]) FileData.wheel }
      match env.parseWheelFilename disk_filename with
      | Except.error _ => (Res.err SourceDistError.WheelFilenameErr, st3)
      | Except.ok filename =>
        match env.wheelMetadataOf (wheel_dir ++ [disk_filename]) with
        | Except.error _ => (Res.err SourceDistError.MetadataErr, st3)
        | Except.ok metadata =>
          (Res.ok { path := wheel_dir ++ [disk_filename], filename := filename,
                    metadata := metadata }, st3)

/-- A concrete environment in which every capability succeeds, used to witness
the claim theorems at concrete inputs. -/
def envBase : Env :=
  { cacheRoot := ["cache"]
    no_build := false
    isCompatible := fun _ => true
    buildSourceResult := fun _ _ _ => Except.ok "pkg-1.0-py3-none-any.whl"
    parseWheelFilename := fun s => Except.ok { raw := s }
    wheelMetadataOf := fun _ => Except.ok { name := "pkg", body := "" }
    serverFresh := true
    cacheable := true
    uncachedOk := true
    downloadOk := true
    tempDirName := fun n => "tmp" ++ toString n
    policy := "policy"
    directFilename := fun _ => "pkg-1.0.tar.gz"
    directArchive := fun u0 => (u0, none)
    directGit := fun u0 => Except.ok (u0, none)
    gitFetch := fun _ => Except.ok { path := ["checkout"], precise := some "abc123" }
    urlParse := fun u0 => some u0 }

/-- The empty starting state. -/
def st0 : St := { fs := { files := [], dirs := [] }, events := [], tmpCount := 0 }

/-- The wheel filename produced by envBase builds. -/
def wfBase : WheelFilename := { raw := "pkg-1.0-py3-none-any.whl" }

/-- The metadata produced by envBase builds. -/
def mdBase : Metadata21 := { name := "pkg", body := "" }

/-- The cached entry produced by envBase builds. -/
def cdBase : DiskFilenameAndMetadata :=
  { disk_filename := "pkg-1.0-py3-none-any.whl", metadata := mdBase }

/-- A one-entry bare map as the Git branch persists it. -/
def mGitWarm : Metadata21s := [(wfBase, cdBase)]

/-- A state whose Git cache entry for envBase already holds mGitWarm. -/
def stGitWarm : St :=
  { fs := { files := [(CacheEntry.path (gitCacheEntry envBase "http://g/r.git" "abc123"),
        FileData.gitMetadata mGitWarm)], dirs := [] }
    events := []
    tmpCount := 0 }

/-- envBase with a tag set that rejects every wheel. -/
def envNoCompat : Env := { envBase with isCompatible := fun _ => false }

/-- envBase with a Git fetch reporting no precise commit. -/
def envNoPrecise : Env :=
  { envBase with gitFetch := fun _ => Except.ok { path := ["checkout"], precise := none } }

theorem find_filter_ne (t : List (FsPath × FileData)) (p q : FsPath) (h : ¬ q = p) :
    List.find? (fun e => e.1 == p) (t.filter (fun e => !(e.1 == q))) =
      List.find? (fun e => e.1 == p) t := by
  induction t with
  | nil => rfl
  | cons a t ih =>
    rcases a with ⟨a1, a2⟩
    by_cases he : a1 = q
    · rw [List.filter_cons_of_neg (by show ¬ ((!(a1 == q)) = true); simp [he]),
        List.find?_cons_of_neg _ (by show ¬ ((a1 == p) = true); simp [he, h]), ih]
    · rw [List.filter_cons_of_pos (by show (!(a1 == q)) = true; simp [he])]
      by_cases hp : a1 = p
      · rw [List.find?_cons_of_pos _ (by show (a1 == p) = true; simp [hp]),
          List.find?_cons_of_pos _ (by show (a1 == p) = true; simp [hp])]
      · rw [List.find?_cons_of_neg _ (by show ¬ ((a1 == p) = true); simp [hp]),
          List.find?_cons_of_neg _ (by show ¬ ((a1 == p) = true); simp [hp]), ih]

theorem find_filter_unpref_below (t : List (FsPath × FileData)) (d p : FsPath)
    (h : d.isPrefixOf p = true) :
    List.find? (fun e => e.1 == p) (t.filter (fun e => !(d.isPrefixOf e.1))) = none := by
  induction t with
  | nil => rfl
  | cons a t ih =>
    rcases a with ⟨a1, a2⟩
    by_cases he : d.isPrefixOf a1
    · rw [List.filter_cons_of_neg (by show ¬ ((!(d.isPrefixOf a1)) = true); simp [he])]
      exact ih
    · rw [List.filter_cons_of_pos (by show (!(d.isPrefixOf a1)) = true; simp [he])]
      have h2 : ¬ a1 = p := by
        intro h3
        rw [h3] at he
        exact he h
      rw [List.find?_cons_of_neg _ (by show ¬ ((a1 == p) = true); simp [h2])]
      exact ih

theorem find_filter_unpref_of_not (t : List (FsPath × FileData)) (d p : FsPath)
    (h : d.isPrefixOf p = false) :
    List.find? (fun e => e.1 == p) (t.filter (fun e => !(d.isPrefixOf e.1))) =
      List.find? (fun e => e.1 == p) t := by
  induction t with
  | nil => rfl
  | cons a t ih =>
    rcases a with ⟨a1, a2⟩
    by_cases hp : a1 = p
    · subst hp
      rw [List.filter_cons_of_pos (by show (!(List.isPrefixOf d a1)) = true; simp [h]),
        List.find?_cons_of_pos _ (by show (a1 == a1) = true; simp),
        List.find?_cons_of_pos _ (by show (a1 == a1) = true; simp)]
    · by_cases he : d.isPrefixOf a1
      · rw [List.filter_cons_of_neg (by show ¬ ((!(d.isPrefixOf a1)) = true); simp [he]),
          List.find?_cons_of_neg _ (by show ¬ ((a1 == p) = true); simp [hp]), ih]
      · rw [List.filter_cons_of_pos (by show (!(d.isPrefixOf a1)) = true; simp [he]),
          List.find?_cons_of_neg _ (by show ¬ ((a1 == p) = true); simp [hp]),
          List.find?_cons_of_neg _ (by show ¬ ((a1 == p) = true); simp [hp]), ih]

theorem any_of_find_eq_some (t : List (FsPath × FileData)) (p : FsPath)
    (e : FsPath × FileData) (h : List.find? (fun x => x.1 == p) t = some e) :
    (t.any (fun x => x.1 == p)) = true := by
  induction t with
  | nil => simp at h
  | cons a t ih =>
    by_cases ha : a.1 = p
    · rw [List.any_cons]
      have h1 : (a.1 == p) = true := by simp [ha]
      rw [h1, Bool.true_or]
    · rw [List.find?_cons_of_neg _ (by show ¬ ((a.1 == p) = true); simp [ha])] at h
      rw [List.any_cons, ih h, Bool.or_true]

theorem FS.read_createDirAll (fs : FS) (d p : FsPath) :
    (fs.createDirAll d).read p = fs.read p := rfl

theorem FS.isFile_createDirAll (fs : FS) (d p : FsPath) :
    (fs.createDirAll d).isFile p = fs.isFile p := rfl

theorem FS.read_write_self (fs : FS) (p : FsPath) (v : FileData) :
    (fs.write p v).read p = some v := by
  simp only [FS.write, FS.read]
  rw [List.find?_cons_of_pos _ (by show (p == p) = true; simp)]
  rfl

theorem FS.read_write_ne (fs : FS) (p q : FsPath) (v : FileData) (h : ¬ q = p) :
    (fs.write q v).read p = fs.read p := by
  simp only [FS.write, FS.read]
  rw [List.find?_cons_of_neg _ (by show ¬ ((q == p) = true); simp [h]),
    find_filter_ne fs.files p q h]

theorem FS.read_removeDirAll_below (fs : FS) (d p : FsPath)
    (h : d.isPrefixOf p = true) :
    (fs.removeDirAll d).read p = none := by
  simp only [FS.removeDirAll, FS.read]
  rw [find_filter_unpref_below fs.files d p h]
  rfl

theorem FS.read_removeDirAll_of_not (fs : FS) (d p : FsPath)
    (h : d.isPrefixOf p = false) :
    (fs.removeDirAll d).read p = fs.read p := by
  simp only [FS.removeDirAll, FS.read]
  rw [find_filter_unpref_of_not fs.files d p h]

theorem FS.read_removeDirAll_none (fs : FS) (d p : FsPath)
    (h : fs.read p = none) :
    (fs.removeDirAll d).read p = none := by
  cases hd : d.isPrefixOf p with
  | true => exact FS.read_removeDirAll_below fs d p hd
  | false => rw [FS.read_removeDirAll_of_not fs d p hd]; exact h

theorem FS.isFile_of_read (fs : FS) (p : FsPath) (c : FileData)
    (h : fs.read p = some c) :
    fs.isFile p = true := by
  simp only [FS.read] at h
  cases hf : fs.files.find? (fun e => e.1 == p) with
  | none => rw [hf] at h; simp at h
  | some e => exact any_of_find_eq_some fs.files p e hf

theorem clearWheels_read_none (fs : FS) (dir p : FsPath)
    (h : dir.isPrefixOf p = true) :
    (clearWheels fs dir).read p = none := by
  unfold clearWheels
  cases he : fs.pathExists dir with
  | true =>
    simp only [if_true]
    exact FS.read_removeDirAll_below fs dir p h
  | false =>
    simp only [Bool.false_eq_true, if_false]
    simp only [FS.pathExists, Bool.or_eq_false_iff] at he
    simp only [FS.read]
    cases hf : fs.files.find? (fun e => e.1 == p) with
    | none => rfl
    | some e =>
      exfalso
      have hmem := List.find?_some hf
      have hmem2 := List.mem_of_find?_eq_some hf
      have hep : e.1 = p := by simpa using hmem
      have hany : (fs.files.any (fun x => dir.isPrefixOf x.1)) = true :=
        List.any_eq_true.mpr ⟨e, hmem2, by rw [hep]; exact h⟩
      rw [he.1] at hany
      exact Bool.false_ne_true hany

theorem isPrefixOf_length_le (l1 l2 : FsPath) (h : l1.isPrefixOf l2 = true) :
    l1.length ≤ l2.length :=
  (List.isPrefixOf_iff_prefix.mp h).length_le

theorem buildEvents_append (l1 l2 : List Ev) :
    buildEvents (l1 ++ l2) = buildEvents l1 ++ buildEvents l2 := by
  simp [buildEvents, List.filter_append]

theorem buildEvents_lock (p : FsPath) : buildEvents [Ev.lockAcquire p] = [] := rfl

theorem buildEvents_fetch (u : String) : buildEvents [Ev.gitFetch u] = [] := rfl

theorem built_wheel_dir_length (sh : WheelCache) (f : String) :
    (WheelCache.built_wheel_dir sh f).length = 3 := by
  cases sh <;> rfl

theorem build_source_dist_no_build (env : Env) (dist : SourceDist)
    (temp : Option FsPath) (src : FsPath) (sub : Option FsPath)
    (entry : CacheEntry) (st : St) (hnb : env.no_build = true) :
    build_source_dist env dist temp src sub entry st =
      (Except.error (BuildCause.bail disabledMsg), st) := by
  simp [build_source_dist, hnb]

theorem response_callback_no_build (env : Env) (sd : SourceDist) (f : String)
    (sub : Option FsPath) (entry : CacheEntry) (st : St)
    (hnb : env.no_build = true) :
    (response_callback env sd f sub entry st).2.events = st.events ∧
    ((response_callback env sd f sub entry st).1 =
        Except.error (SourceDistError.Build sd (BuildCause.bail disabledMsg)) ∨
      (response_callback env sd f sub entry st).1 =
        Except.error SourceDistError.Client) := by
  unfold response_callback
  cases hdl : env.downloadOk with
  | false => simp [download_source_dist_url, hdl]
  | true => simp [download_source_dist_url, hdl, build_source_dist, hnb]

theorem get_cached_no_build (env : Env) (sd : SourceDist) (f : String)
    (sub : Option FsPath) (entry : CacheEntry) (st : St)
    (hnb : env.no_build = true) :
    (get_cached_with_callback env sd f sub entry st).2.events = st.events ∧
    (∀ d c, (get_cached_with_callback env sd f sub entry st).1 =
        Except.error (SourceDistError.Build d c) →
      d = sd ∧ c = BuildCause.bail disabledMsg) := by
  unfold get_cached_with_callback
  cases hfr : env.serverFresh with
  | false =>
    cases hrd : st.fs.read (CacheEntry.path entry) with
    | none => simp
    | some c => cases c <;> simp
  | true =>
    have hcb := response_callback_no_build env sd f sub entry st hnb
    rcases hq : response_callback env sd f sub entry st with ⟨r, st1⟩
    rw [hq] at hcb
    rw [if_pos rfl]
    cases r with
    | error e0 =>
      dsimp only
      refine ⟨hcb.1, ?_⟩
      intro d c hh
      simp only [Except.error.injEq] at hh
      rcases hcb.2 with h2 | h2 <;> simp only [Except.error.injEq] at h2
      · have h3 := hh.symm.trans h2
        simp only [SourceDistError.Build.injEq] at h3
        exact h3
      · exact absurd (hh.symm.trans h2) (by simp)
    | ok m =>
      dsimp only
      cases hc : env.cacheable with
      | true =>
        rw [if_pos rfl]
        exact ⟨hcb.1, by intro d c hh; simp at hh⟩
      | false =>
        rw [if_neg (by simp)]
        exact ⟨hcb.1, by intro d c hh; simp at hh⟩

theorem urlStale_no_build (env : Env) (sd : SourceDist) (f : String)
    (sub : Option FsPath) (entry : CacheEntry) (st : St)
    (hnb : env.no_build = true) :
    (urlStale env sd f sub entry st).2.events = st.events ∧
    (∀ d c, (urlStale env sd f sub entry st).1 = Res.err (SourceDistError.Build d c) →
      d = sd ∧ c = BuildCause.bail disabledMsg) := by
  unfold urlStale
  cases huo : env.uncachedOk with
  | false => simp
  | true =>
    cases hdl : env.downloadOk with
    | false => simp [download_source_dist_url, hdl]
    | true => simp [download_source_dist_url, hdl, build_source_dist, hnb]

theorem url_no_build (env : Env) (sd : SourceDist) (f u : String) (sh : WheelCache)
    (sub : Option FsPath) (st : St) (hnb : env.no_build = true) :
    (url env sd f u sh sub st).2.events = st.events ∧
    (∀ d c, (url env sd f u sh sub st).1 = Res.err (SourceDistError.Build d c) →
      d = sd ∧ c = BuildCause.bail disabledMsg) := by
  have hgc := get_cached_no_build env sd f sub (urlCacheEntry env sh f) st hnb
  simp only [url]
  rcases hq : get_cached_with_callback env sd f sub (urlCacheEntry env sh f) st
    with ⟨r, st1⟩
  rw [hq] at hgc
  cases r with
  | error e0 =>
    refine ⟨hgc.1, ?_⟩
    intro d c hh
    simp only [Res.err.injEq] at hh
    exact hgc.2 d c (by rw [hh])
  | ok m =>
    dsimp only
    cases hfc : findCompatible env m with
    | some pair =>
      rcases pair with ⟨fn, cd⟩
      exact ⟨hgc.1, by intro d c hh; simp at hh⟩
    | none =>
      have hus := urlStale_no_build env sd f sub (urlCacheEntry env sh f) st1 hnb
      exact ⟨hus.1.trans hgc.1, hus.2⟩

theorem gitAfterFetch_no_build (env : Env) (sd : SourceDist) (name uG : String)
    (fetch : Fetch) (sub : Option FsPath) (st : St) (hnb : env.no_build = true) :
    (gitAfterFetch env sd name uG fetch sub st).2.events = st.events ∧
    (∀ d c, (gitAfterFetch env sd name uG fetch sub st).1 =
        Res.err (SourceDistError.Build d c) →
      d = sd ∧ c = BuildCause.bail disabledMsg) := by
  unfold gitAfterFetch
  cases hpr : fetch.precise with
  | none => simp
  | some sha =>
    dsimp only
    cases hif : st.fs.isFile (CacheEntry.path (gitCacheEntry env uG sha)) with
    | false =>
      rw [if_neg (by simp)]
      dsimp only
      rw [build_source_dist_no_build env sd none fetch.path sub _ st hnb]
      refine ⟨rfl, ?_⟩
      intro d c hh
      simp only [Res.err.injEq, SourceDistError.Build.injEq] at hh
      exact ⟨hh.1.symm, hh.2.symm⟩
    | true =>
      rw [if_pos rfl]
      cases hrd : st.fs.read (CacheEntry.path (gitCacheEntry env uG sha)) with
      | none => exact ⟨rfl, by intro d c hh; simp at hh⟩
      | some c =>
        dsimp only
        cases hpb : parseBareMetadata c with
        | error u => exact ⟨rfl, by intro d c hh; simp at hh⟩
        | ok metadatas =>
          dsimp only
          cases hfc : findCompatible env metadatas with
          | some pair =>
            rcases pair with ⟨fn, cd⟩
            exact ⟨rfl, by intro d c hh; simp at hh⟩
          | none =>
            dsimp only
            rw [build_source_dist_no_build env sd none fetch.path sub _ st hnb]
            refine ⟨rfl, ?_⟩
            intro d c hh
            simp only [Res.err.injEq, SourceDistError.Build.injEq] at hh
            exact ⟨hh.1.symm, hh.2.symm⟩

theorem download_git_state (env : Env) (uG : String) (st : St) :
    (download_source_dist_git env uG st).2.fs.files = st.fs.files ∧
    (download_source_dist_git env uG st).2.tmpCount = st.tmpCount ∧
    buildEvents (download_source_dist_git env uG st).2.events = buildEvents st.events := by
  unfold download_source_dist_git
  dsimp only
  cases hdg : env.directGit uG with
  | error m => simp [FS.createDirAll, buildEvents_append, buildEvents, Ev.isBuild]
  | ok pr =>
    rcases pr with ⟨u2, sub⟩
    dsimp only
    cases hgf : env.gitFetch u2 with
    | error m => simp [FS.createDirAll, buildEvents_append, buildEvents, Ev.isBuild]
    | ok fetch => simp [FS.createDirAll, buildEvents_append, buildEvents, Ev.isBuild]

theorem download_git_err (env : Env) (uG : String) (st : St) (e : SourceDistError)
    (he : (download_source_dist_git env uG st).1 = Except.error e) :
    ∃ m, e = SourceDistError.Git m := by
  unfold download_source_dist_git at he
  dsimp only at he
  split at he
  · simp only [Except.error.injEq] at he
    exact ⟨_, he.symm⟩
  · split at he
    · simp only [Except.error.injEq] at he
      exact ⟨_, he.symm⟩
    · simp at he

theorem git_no_build (env : Env) (sd : SourceDist) (name uG : String) (st : St)
    (hnb : env.no_build = true) :
    buildEvents (git env sd name uG st).2.events = buildEvents st.events ∧
    (∀ d c, (git env sd name uG st).1 = Res.err (SourceDistError.Build d c) →
      d = sd ∧ c = BuildCause.bail disabledMsg) := by
  unfold git
  have hst := download_git_state env uG st
  rcases hd : download_source_dist_git env uG st with ⟨r, st1⟩
  rw [hd] at hst
  cases r with
  | error e =>
    dsimp only
    refine ⟨hst.2.2, ?_⟩
    intro d c hh
    simp only [Res.err.injEq] at hh
    rcases download_git_err env uG st e (by rw [hd]) with ⟨m, hm⟩
    rw [hh] at hm
    simp at hm
  | ok pr =>
    rcases pr with ⟨fetch, sub⟩
    dsimp only
    have haf := gitAfterFetch_no_build env sd name uG fetch sub st1 hnb
    refine ⟨?_, haf.2⟩
    rw [haf.1]
    exact hst.2.2

/-- Claim C1, counterexample: a Path sdist under no_build = true does not fail
with the "builds disabled" Build error — it invokes BuildContext::build_source
(the event is in the trace) and succeeds, because the Path branch of
download_and_build bypasses the no_build guard of build_source_dist. -/
theorem C1_counterexample :
    ({ envBase with no_build := true } : Env).no_build = true ∧
    (download_and_build { envBase with no_build := true }
        (SourceDist.Path "pkg" ["proj"]) st0).1 =
      Res.ok { path := ["cache", "built-wheels", "pkg-proj", "pkg-1.0-py3-none-any.whl"]
               filename := { raw := "pkg-1.0-py3-none-any.whl" }
               metadata := { name := "pkg", body := "" } } ∧
    Ev.buildSource ["proj"] ["cache", "built-wheels", "pkg-proj"] ∈
      (download_and_build { envBase with no_build := true }
        (SourceDist.Path "pkg" ["proj"]) st0).2.events := by
  refine ⟨rfl, rfl, ?_⟩
  show Ev.buildSource ["proj"] ["cache", "built-wheels", "pkg-proj"] ∈
    [Ev.buildSource ["proj"] ["cache", "built-wheels", "pkg-proj"]]
  exact List.Mem.head _

/-- Claim C1, amended: when BuildContext::no_build() is true, every call of
build_source_dist fails immediately with a Build cause whose message is
"Building source distributions is disabled"; consequently, for the Registry,
DirectUrl, and Git variants, download_and_build never invokes
BuildContext::build_source and any Build error it returns carries exactly that
cause (cache hits still succeed without building).  The Path variant, by
contrast, invokes build_source regardless of no_build. -/
theorem C1_amended (env : Env) (dist : SourceDist) (st : St)
    (hnb : env.no_build = true) (hnp : ∀ n p, dist ≠ SourceDist.Path n p) :
    buildEvents (download_and_build env dist st).2.events = buildEvents st.events ∧
    (∀ d c, (download_and_build env dist st).1 =
        Res.err (SourceDistError.Build d c) →
      d = dist ∧ c = BuildCause.bail disabledMsg) ∧
    (∀ dist2 temp src sub entry st2,
      build_source_dist env dist2 temp src sub entry st2 =
        (Except.error (BuildCause.bail disabledMsg), st2)) := by
  refine ⟨?_, ?_, fun dist2 temp src sub entry st2 =>
    build_source_dist_no_build env dist2 temp src sub entry st2 hnb⟩
  case _ =>
    cases dist with
    | DirectUrl n u0 =>
      have h := url_no_build env (SourceDist.DirectUrl n u0) (env.directFilename u0)
        (env.directArchive u0).1 (WheelCache.Url (env.directArchive u0).1)
        (env.directArchive u0).2 st hnb
      show buildEvents (url env (SourceDist.DirectUrl n u0) (env.directFilename u0)
        (env.directArchive u0).1 (WheelCache.Url (env.directArchive u0).1)
        (env.directArchive u0).2 st).2.events = buildEvents st.events
      rw [h.1]
    | Registry n file index =>
      unfold download_and_build
      dsimp only
      cases hup : env.urlParse file.url with
      | none => rfl
      | some u =>
        have h := url_no_build env (SourceDist.Registry n file index) file.filename u
          (WheelCache.Index index) none st hnb
        rw [h.1]
    | Git n u =>
      exact (git_no_build env (SourceDist.Git n u) n u st hnb).1
    | Path n p => exact absurd rfl (hnp n p)
  case _ =>
    cases dist with
    | DirectUrl n u0 =>
      exact (url_no_build env (SourceDist.DirectUrl n u0) (env.directFilename u0)
        (env.directArchive u0).1 (WheelCache.Url (env.directArchive u0).1)
        (env.directArchive u0).2 st hnb).2
    | Registry n file index =>
      unfold download_and_build
      dsimp only
      cases hup : env.urlParse file.url with
      | none => intro d c hh; simp at hh
      | some u =>
        exact (url_no_build env (SourceDist.Registry n file index) file.filename u
          (WheelCache.Index index) none st hnb).2
    | Git n u =>
      exact (git_no_build env (SourceDist.Git n u) n u st hnb).2
    | Path n p => exact absurd rfl (hnp n p)

/-- Claim C1 witness: the amended theorem applied to a concrete Registry sdist
under no_build = true. -/
theorem C1_amended_witness :
    buildEvents (download_and_build { envBase with no_build := true }
        (SourceDist.Registry "pkg" { url := "http://x/f.tar.gz", filename := "f.tar.gz" }
          "idx") st0).2.events = buildEvents st0.events ∧
    (∀ d c, (download_and_build { envBase with no_build := true }
        (SourceDist.Registry "pkg" { url := "http://x/f.tar.gz", filename := "f.tar.gz" }
          "idx") st0).1 = Res.err (SourceDistError.Build d c) →
      d = SourceDist.Registry "pkg" { url := "http://x/f.tar.gz", filename := "f.tar.gz" }
            "idx" ∧ c = BuildCause.bail disabledMsg) ∧
    (∀ dist2 temp src sub entry st2,
      build_source_dist { envBase with no_build := true } dist2 temp src sub entry st2 =
        (Except.error (BuildCause.bail disabledMsg), st2)) :=
  C1_amended { envBase with no_build := true }
    (SourceDist.Registry "pkg" { url := "http://x/f.tar.gz", filename := "f.tar.gz" } "idx")
    st0 rfl (fun _ _ h => SourceDist.noConfusion h)

/-- Claim C2: for a Git sdist whose build succeeds but reports a metadata name
different from the caller-declared one, download_and_build returns NameMismatch
carrying both names, and the cache entry's metadata.json is untouched on this
error path. -/
theorem C2_name_mismatch (env : Env) (nameG uG u2 : String)
    (sub : Option FsPath) (fetch : Fetch) (sha df : String)
    (fn : WheelFilename) (md : Metadata21) (st : St)
    (hdg : env.directGit uG = Except.ok (u2, sub))
    (hgf : env.gitFetch u2 = Except.ok fetch)
    (hpr : fetch.precise = some sha)
    (hmiss : st.fs.isFile (CacheEntry.path (gitCacheEntry env uG sha)) = false)
    (hnb : env.no_build = false)
    (hbs : ∀ s d o, env.buildSourceResult s d o = Except.ok df)
    (hpw : env.parseWheelFilename df = Except.ok fn)
    (hwm : ∀ p, env.wheelMetadataOf p = Except.ok md)
    (hne : ¬ md.name = nameG)
    (hdf : ¬ df = METADATA_JSON) :
    (download_and_build env (SourceDist.Git nameG uG) st).1 =
      Res.err (SourceDistError.NameMismatch nameG md.name) ∧
    (download_and_build env (SourceDist.Git nameG uG) st).2.fs.read
        (CacheEntry.path (gitCacheEntry env uG sha)) =
      st.fs.read (CacheEntry.path (gitCacheEntry env uG sha)) := by
  unfold download_and_build git download_source_dist_git
  dsimp only
  rw [hdg]
  dsimp only
  rw [hgf]
  dsimp only
  unfold gitAfterFetch
  rw [hpr]
  dsimp only
  rw [FS.isFile_createDirAll, hmiss]
  rw [if_neg (by simp)]
  dsimp only
  unfold build_source_dist
  rw [hnb]
  rw [if_neg (by simp)]
  dsimp only
  rw [hbs]
  dsimp only
  rw [hpw]
  dsimp only
  rw [hwm]
  dsimp only
  have hbeq : (md.name == nameG) = false := by simp [hne]
  rw [hbeq]
  rw [if_neg (by simp)]
  dsimp only
  refine ⟨rfl, ?_⟩
  rw [FS.read_write_ne _ _ _ _ ?_, FS.read_createDirAll, FS.read_createDirAll]
  intro hcontra
  apply hdf
  have h2 := List.append_cancel_left hcontra
  simpa using h2

/-- Claim C2 witness: the theorem applied to a concrete Git sdist whose build
reports the name "other" while the caller declared "pkg". -/
theorem C2_name_mismatch_witness :
    (download_and_build
        { envBase with wheelMetadataOf := fun _ => Except.ok { name := "other", body := "" } }
        (SourceDist.Git "pkg" "http://g/r.git") st0).1 =
      Res.err (SourceDistError.NameMismatch "pkg" "other") ∧
    (download_and_build
        { envBase with wheelMetadataOf := fun _ => Except.ok { name := "other", body := "" } }
        (SourceDist.Git "pkg" "http://g/r.git") st0).2.fs.read
        (CacheEntry.path (gitCacheEntry
          { envBase with wheelMetadataOf := fun _ => Except.ok { name := "other", body := "" } }
          "http://g/r.git" "abc123")) =
      st0.fs.read (CacheEntry.path (gitCacheEntry
        { envBase with wheelMetadataOf := fun _ => Except.ok { name := "other", body := "" } }
        "http://g/r.git" "abc123")) :=
  C2_name_mismatch
    { envBase with wheelMetadataOf := fun _ => Except.ok { name := "other", body := "" } }
    "pkg" "http://g/r.git" "http://g/r.git" none
    { path := ["checkout"], precise := some "abc123" } "abc123"
    "pkg-1.0-py3-none-any.whl" { raw := "pkg-1.0-py3-none-any.whl" }
    { name := "other", body := "" } st0
    rfl rfl rfl rfl rfl (fun _ _ _ => rfl) rfl (fun _ => rfl)
    (by decide) (by decide)

/-- Claim C3: on a fresh HTTP body the response callback first clears the cache
entry directory recursively (so no file under it remains when the build step
begins), then downloads, builds exactly once, and returns a Metadata21s map
holding exactly the one newly built entry. -/
theorem C3_fresh_body (env : Env) (sd : SourceDist) (filename : String)
    (sh : WheelCache) (sub : Option FsPath) (st : St) (df : String)
    (fn : WheelFilename) (md : Metadata21)
    (hdl : env.downloadOk = true) (hnb : env.no_build = false)
    (hbs : ∀ s d o, env.buildSourceResult s d o = Except.ok df)
    (hpw : env.parseWheelFilename df = Except.ok fn)
    (hwm : ∀ p, env.wheelMetadataOf p = Except.ok md) :
    (response_callback env sd filename sub (urlCacheEntry env sh filename) st).1 =
      Except.ok [(fn, { disk_filename := df, metadata := md })] ∧
    (response_callback env sd filename sub (urlCacheEntry env sh filename) st).2.events =
      st.events ++ [Ev.buildSource
        (((env.cacheRoot ++ [bucketBuiltWheels]) ++ [env.tempDirName st.tmpCount]) ++
          [filename])
        (urlCacheEntry env sh filename).dir] ∧
    (∀ p, (urlCacheEntry env sh filename).dir.isPrefixOf p = true →
      (download_source_dist_url env filename
        { st with fs := clearWheels st.fs (urlCacheEntry env sh filename).dir }).2.fs.read p
        = none) := by
  unfold response_callback
  dsimp only
  unfold download_source_dist_url
  rw [hdl, if_pos rfl]
  dsimp only
  unfold build_source_dist
  rw [hnb, if_neg (by simp)]
  dsimp only
  rw [hbs]
  dsimp only
  rw [hpw]
  dsimp only
  rw [hwm]
  dsimp only
  refine ⟨?_, ?_, ?_⟩
  · simp [insertWheel]
  · rfl
  · intro p hp
    have hlen := isPrefixOf_length_le _ _ hp
    have hsep :
        ¬ (((env.cacheRoot ++ [bucketBuiltWheels]) ++ [env.tempDirName st.tmpCount]) ++
          [filename]) = p := by
      intro hcontra
      rw [← hcontra] at hlen
      simp [urlCacheEntry, built_wheel_dir_length] at hlen
    rw [FS.read_write_ne _ _ _ _ hsep, FS.read_createDirAll, FS.read_createDirAll]
    exact clearWheels_read_none st.fs _ p hp

/-- Claim C3 witness: the theorem applied to a concrete registry-sharded entry
in the base environment. -/
theorem C3_fresh_body_witness :
    (response_callback envBase
        (SourceDist.Registry "pkg" { url := "http://x/f.tar.gz", filename := "f.tar.gz" }
          "idx") "f.tar.gz" none (urlCacheEntry envBase (WheelCache.Index "idx") "f.tar.gz")
        st0).1 =
      Except.ok [(wfBase, { disk_filename := "pkg-1.0-py3-none-any.whl", metadata := mdBase })] ∧
    (response_callback envBase
        (SourceDist.Registry "pkg" { url := "http://x/f.tar.gz", filename := "f.tar.gz" }
          "idx") "f.tar.gz" none (urlCacheEntry envBase (WheelCache.Index "idx") "f.tar.gz")
        st0).2.events =
      st0.events ++ [Ev.buildSource
        (((envBase.cacheRoot ++ [bucketBuiltWheels]) ++ [envBase.tempDirName st0.tmpCount]) ++
          ["f.tar.gz"])
        (urlCacheEntry envBase (WheelCache.Index "idx") "f.tar.gz").dir] ∧
    (∀ p, (urlCacheEntry envBase (WheelCache.Index "idx") "f.tar.gz").dir.isPrefixOf p = true →
      (download_source_dist_url envBase "f.tar.gz"
        { st0 with fs := (clearWheels st0.fs
            (urlCacheEntry envBase (WheelCache.Index "idx") "f.tar.gz").dir) }).2.fs.read p
        = none) :=
  C3_fresh_body envBase
    (SourceDist.Registry "pkg" { url := "http://x/f.tar.gz", filename := "f.tar.gz" } "idx")
    "f.tar.gz" (WheelCache.Index "idx") none st0 "pkg-1.0-py3-none-any.whl" wfBase mdBase
    rfl rfl (fun _ _ _ => rfl) rfl (fun _ => rfl)

theorem persistStale_read_none (fs : FS) (e : CacheEntry) (k : WheelFilename)
    (v : DiskFilenameAndMetadata) (h : fs.read (CacheEntry.path e) = none) :
    persistStale fs e k v = Except.ok fs := by
  unfold persistStale
  rw [h]

theorem persistStale_read_bad (fs : FS) (e : CacheEntry) (k : WheelFilename)
    (v : DiskFilenameAndMetadata) (c : FileData)
    (h : fs.read (CacheEntry.path e) = some c)
    (hp : parseEnvelope c = Except.error ()) :
    persistStale fs e k v = Except.error SourceDistError.Serde := by
  unfold persistStale
  rw [h]
  dsimp only
  rw [hp]

/-- Claim C4, counterexample: on the stale-artifact path, after a successful
build (the buildSource event is in the trace), a metadata.json whose bytes do
not deserialize makes the call return the Serde error instead of the freshly
built wheel — the deserialization failure of the read-modify-write is NOT
swallowed. -/
theorem C4_counterexample :
    (urlStale envBase
        (SourceDist.Registry "pkg" { url := "http://x/f.tar.gz", filename := "f.tar.gz" }
          "idx") "f.tar.gz" none (urlCacheEntry envBase (WheelCache.Index "idx") "f.tar.gz")
        { fs := { files := [(CacheEntry.path
              (urlCacheEntry envBase (WheelCache.Index "idx") "f.tar.gz"),
            FileData.raw "junk")], dirs := [] }, events := [], tmpCount := 0 }).1 =
      Res.err SourceDistError.Serde ∧
    Ev.buildSource ["cache", "built-wheels", "tmp0", "f.tar.gz"]
        ["cache", "built-wheels", "index", "idx", "f.tar.gz"] ∈
      (urlStale envBase
        (SourceDist.Registry "pkg" { url := "http://x/f.tar.gz", filename := "f.tar.gz" }
          "idx") "f.tar.gz" none (urlCacheEntry envBase (WheelCache.Index "idx") "f.tar.gz")
        { fs := { files := [(CacheEntry.path
              (urlCacheEntry envBase (WheelCache.Index "idx") "f.tar.gz"),
            FileData.raw "junk")], dirs := [] }, events := [], tmpCount := 0 }).2.events := by
  refine ⟨rfl, ?_⟩
  show Ev.buildSource ["cache", "built-wheels", "tmp0", "f.tar.gz"]
      ["cache", "built-wheels", "index", "idx", "f.tar.gz"] ∈
    [Ev.buildSource ["cache", "built-wheels", "tmp0", "f.tar.gz"]
      ["cache", "built-wheels", "index", "idx", "f.tar.gz"]]
  exact List.Mem.head _

/-- Claim C4, amended: on the stale-artifact-but-fresh-body path, after a
successful build only a FAILED READ of metadata.json is swallowed (the freshly
built wheel is still returned); when the file reads back but does not
deserialize, the Serde error propagates to the caller in place of the built
wheel. -/
theorem C4_amended (env : Env) (sd : SourceDist) (filename : String)
    (sub : Option FsPath) (sh : WheelCache) (st : St) (df : String)
    (fn : WheelFilename) (md : Metadata21)
    (huo : env.uncachedOk = true) (hdl : env.downloadOk = true)
    (hnb : env.no_build = false)
    (hbs : ∀ s d o, env.buildSourceResult s d o = Except.ok df)
    (hpw : env.parseWheelFilename df = Except.ok fn)
    (hwm : ∀ p, env.wheelMetadataOf p = Except.ok md)
    (hdf : ¬ df = METADATA_JSON)
    (hsep : List.isPrefixOf ((env.cacheRoot ++ [bucketBuiltWheels]) ++
        [env.tempDirName st.tmpCount])
      (CacheEntry.path (urlCacheEntry env sh filename)) = false) :
    (st.fs.read (CacheEntry.path (urlCacheEntry env sh filename)) = none →
      (urlStale env sd filename sub (urlCacheEntry env sh filename) st).1 =
        Res.ok (BuiltWheelMetadata.from_cached fn
          { disk_filename := df, metadata := md } (urlCacheEntry env sh filename))) ∧
    (∀ c, st.fs.read (CacheEntry.path (urlCacheEntry env sh filename)) = some c →
      parseEnvelope c = Except.error () →
      (urlStale env sd filename sub (urlCacheEntry env sh filename) st).1 =
        Res.err SourceDistError.Serde) := by
  have hpre : List.isPrefixOf ((env.cacheRoot ++ [bucketBuiltWheels]) ++
      [env.tempDirName st.tmpCount])
      (((env.cacheRoot ++ [bucketBuiltWheels]) ++ [env.tempDirName st.tmpCount]) ++
        [filename]) = true :=
    List.isPrefixOf_iff_prefix.mpr ⟨[filename], rfl⟩
  have hsd : ¬ (((env.cacheRoot ++ [bucketBuiltWheels]) ++ [env.tempDirName st.tmpCount]) ++
      [filename]) = CacheEntry.path (urlCacheEntry env sh filename) := by
    intro hc
    rw [hc] at hpre
    exact Bool.false_ne_true (hsep.symm.trans hpre)
  have hwh : ¬ ((urlCacheEntry env sh filename).dir ++ [df]) =
      CacheEntry.path (urlCacheEntry env sh filename) := by
    intro hc
    exact hdf (by simpa using List.append_cancel_left hc)
  constructor
  · intro h0
    unfold urlStale
    rw [huo, if_pos rfl]
    dsimp only
    unfold download_source_dist_url
    rw [hdl, if_pos rfl]
    dsimp only
    unfold build_source_dist
    rw [hnb, if_neg (by simp)]
    dsimp only
    rw [hbs]
    dsimp only
    rw [hpw]
    dsimp only
    rw [hwm]
    dsimp only
    unfold persistStale
    rw [FS.read_removeDirAll_of_not _ _ _ hsep, FS.read_write_ne _ _ _ _ hwh,
      FS.read_createDirAll, FS.read_write_ne _ _ _ _ hsd,
      FS.read_createDirAll, FS.read_createDirAll, h0]
  · intro c hc hp
    unfold urlStale
    rw [huo, if_pos rfl]
    dsimp only
    unfold download_source_dist_url
    rw [hdl, if_pos rfl]
    dsimp only
    unfold build_source_dist
    rw [hnb, if_neg (by simp)]
    dsimp only
    rw [hbs]
    dsimp only
    rw [hpw]
    dsimp only
    rw [hwm]
    dsimp only
    unfold persistStale
    rw [FS.read_removeDirAll_of_not _ _ _ hsep, FS.read_write_ne _ _ _ _ hwh,
      FS.read_createDirAll, FS.read_write_ne _ _ _ _ hsd,
      FS.read_createDirAll, FS.read_createDirAll, hc]
    dsimp only
    rw [hp]

/-- Claim C4 witness: the amended theorem at a concrete registry entry whose
metadata.json is absent at the read-back: the freshly built wheel is returned. -/
theorem C4_amended_witness :
    (urlStale envBase
        (SourceDist.Registry "pkg" { url := "http://x/f.tar.gz", filename := "f.tar.gz" }
          "idx") "f.tar.gz" none (urlCacheEntry envBase (WheelCache.Index "idx") "f.tar.gz")
        st0).1 =
      Res.ok (BuiltWheelMetadata.from_cached wfBase
        { disk_filename := "pkg-1.0-py3-none-any.whl", metadata := mdBase }
        (urlCacheEntry envBase (WheelCache.Index "idx") "f.tar.gz")) :=
  (C4_amended envBase
    (SourceDist.Registry "pkg" { url := "http://x/f.tar.gz", filename := "f.tar.gz" } "idx")
    "f.tar.gz" none (WheelCache.Index "idx") st0 "pkg-1.0-py3-none-any.whl" wfBase mdBase
    rfl rfl rfl (fun _ _ _ => rfl) rfl (fun _ => rfl) (by decide) (by decide)).1 rfl

/-- Claim C5: the Git cache entry consulted by the git branch is a function of
the shard WheelCache::Git(url) and the resolved precise commit SHA: with the
URL fixed, two fetches resolving to the same SHA use the same cache directory
and fetches resolving to different SHAs use different ones — the SHA, not the
user-supplied revision spec, is the leaf of the key. -/
theorem C5_git_key (env : Env) (u s1 s2 : String) :
    gitCacheEntry env u s1 = gitCacheEntry env u s2 ↔ s1 = s2 := by
  constructor
  · intro h
    have hd := congrArg CacheEntry.dir h
    simp only [gitCacheEntry, WheelCache.built_wheel_dir] at hd
    have h2 := List.append_cancel_left hd
    simpa using h2
  · intro h
    rw [h]

/-- Claim C6: for a Git sdist whose cache entry metadata.json exists, parses as
the bare map, and holds a tag-compatible entry, download_and_build returns that
cached entry (path = cache dir joined with its disk_filename) and never
invokes BuildContext::build_source. -/
theorem C6_cache_hit (env : Env) (nameG uG u2 : String)
    (sub : Option FsPath) (fetch : Fetch) (sha : String)
    (m0 : Metadata21s) (fn : WheelFilename) (cd : DiskFilenameAndMetadata) (st : St)
    (hdg : env.directGit uG = Except.ok (u2, sub))
    (hgf : env.gitFetch u2 = Except.ok fetch)
    (hpr : fetch.precise = some sha)
    (hrd : st.fs.read (CacheEntry.path (gitCacheEntry env uG sha)) =
      some (FileData.gitMetadata m0))
    (hfc : findCompatible env m0 = some (fn, cd)) :
    (download_and_build env (SourceDist.Git nameG uG) st).1 =
      Res.ok (BuiltWheelMetadata.from_cached fn cd (gitCacheEntry env uG sha)) ∧
    buildEvents (download_and_build env (SourceDist.Git nameG uG) st).2.events =
      buildEvents st.events := by
  unfold download_and_build git download_source_dist_git
  dsimp only
  rw [hdg]
  dsimp only
  rw [hgf]
  dsimp only
  unfold gitAfterFetch
  rw [hpr]
  dsimp only
  rw [FS.isFile_createDirAll, FS.isFile_of_read st.fs _ _ hrd, if_pos rfl,
    FS.read_createDirAll, hrd]
  dsimp only [parseBareMetadata]
  rw [hfc]
  dsimp only
  refine ⟨rfl, ?_⟩
  simp [buildEvents_append, buildEvents, Ev.isBuild]

/-- Claim C6 witness: the theorem applied to a concrete warm Git cache in the
base environment. -/
theorem C6_cache_hit_witness :
    (download_and_build envBase (SourceDist.Git "pkg" "http://g/r.git") stGitWarm).1 =
      Res.ok (BuiltWheelMetadata.from_cached wfBase cdBase
        (gitCacheEntry envBase "http://g/r.git" "abc123")) ∧
    buildEvents (download_and_build envBase (SourceDist.Git "pkg" "http://g/r.git")
        stGitWarm).2.events =
      buildEvents stGitWarm.events :=
  C6_cache_hit envBase "pkg" "http://g/r.git" "http://g/r.git" none
    { path := ["checkout"], precise := some "abc123" } "abc123"
    mGitWarm wfBase cdBase stGitWarm
    rfl rfl rfl (by rfl) rfl

/-- Claim C7: whenever a fresh build is performed — on the HTTP
stale-artifact path (urlStale) or on the Git build path — the returned
BuiltWheelMetadata is the newly built wheel (its filename, its metadata, and a
path at the just-built file inside the cache directory), even though the
configured tag set deems that wheel incompatible. -/
theorem C7_fresh_build_returned (env : Env) (sd : SourceDist) (filename : String)
    (sub : Option FsPath) (sh : WheelCache) (st : St)
    (nameG uG u2 : String) (subG : Option FsPath) (fetch : Fetch) (sha : String)
    (df : String) (fn : WheelFilename) (md : Metadata21)
    (hnb : env.no_build = false)
    (hbs : ∀ s d o, env.buildSourceResult s d o = Except.ok df)
    (hpw : env.parseWheelFilename df = Except.ok fn)
    (hwm : ∀ p, env.wheelMetadataOf p = Except.ok md)
    (_hic : env.isCompatible fn = false)
    (hdf : ¬ df = METADATA_JSON)
    (huo : env.uncachedOk = true) (hdl : env.downloadOk = true)
    (hr0 : st.fs.read (CacheEntry.path (urlCacheEntry env sh filename)) = none)
    (hsep : List.isPrefixOf ((env.cacheRoot ++ [bucketBuiltWheels]) ++
        [env.tempDirName st.tmpCount])
      (CacheEntry.path (urlCacheEntry env sh filename)) = false)
    (hdg : env.directGit uG = Except.ok (u2, subG))
    (hgf : env.gitFetch u2 = Except.ok fetch)
    (hpr : fetch.precise = some sha)
    (hmiss : st.fs.isFile (CacheEntry.path (gitCacheEntry env uG sha)) = false)
    (hnm : md.name = nameG) :
    (urlStale env sd filename sub (urlCacheEntry env sh filename) st).1 =
      Res.ok (BuiltWheelMetadata.from_cached fn { disk_filename := df, metadata := md }
        (urlCacheEntry env sh filename)) ∧
    (download_and_build env (SourceDist.Git nameG uG) st).1 =
      Res.ok { path := (gitCacheEntry env uG sha).dir ++ [df], filename := fn,
               metadata := md } := by
  constructor
  · have hpre : List.isPrefixOf ((env.cacheRoot ++ [bucketBuiltWheels]) ++
        [env.tempDirName st.tmpCount])
        (((env.cacheRoot ++ [bucketBuiltWheels]) ++ [env.tempDirName st.tmpCount]) ++
          [filename]) = true :=
      List.isPrefixOf_iff_prefix.mpr ⟨[filename], rfl⟩
    have hsd : ¬ (((env.cacheRoot ++ [bucketBuiltWheels]) ++
        [env.tempDirName st.tmpCount]) ++ [filename]) =
        CacheEntry.path (urlCacheEntry env sh filename) := by
      intro hc
      rw [hc] at hpre
      exact Bool.false_ne_true (hsep.symm.trans hpre)
    have hwh : ¬ ((urlCacheEntry env sh filename).dir ++ [df]) =
        CacheEntry.path (urlCacheEntry env sh filename) := by
      intro hc
      exact hdf (by simpa using List.append_cancel_left hc)
    unfold urlStale
    rw [huo, if_pos rfl]
    dsimp only
    unfold download_source_dist_url
    rw [hdl, if_pos rfl]
    dsimp only
    unfold build_source_dist
    rw [hnb, if_neg (by simp)]
    dsimp only
    rw [hbs]
    dsimp only
    rw [hpw]
    dsimp only
    rw [hwm]
    dsimp only
    unfold persistStale
    rw [FS.read_removeDirAll_of_not _ _ _ hsep, FS.read_write_ne _ _ _ _ hwh,
      FS.read_createDirAll, FS.read_write_ne _ _ _ _ hsd,
      FS.read_createDirAll, FS.read_createDirAll, hr0]
  · unfold download_and_build git download_source_dist_git
    dsimp only
    rw [hdg]
    dsimp only
    rw [hgf]
    dsimp only
    unfold gitAfterFetch
    rw [hpr]
    dsimp only
    rw [FS.isFile_createDirAll, hmiss, if_neg (by simp)]
    dsimp only
    unfold build_source_dist
    rw [hnb, if_neg (by simp)]
    dsimp only
    rw [hbs]
    dsimp only
    rw [hpw]
    dsimp only
    rw [hwm]
    dsimp only
    have hbeq : (md.name == nameG) = true := by simp [hnm]
    rw [hbeq, if_pos rfl]

/-- Claim C7 witness: the theorem applied to a concrete environment whose tag
set rejects every wheel; the freshly built wheel is returned on both the HTTP
stale path and the Git path. -/
theorem C7_fresh_build_returned_witness :
    (urlStale envNoCompat
        (SourceDist.Registry "pkg" { url := "http://x/f.tar.gz", filename := "f.tar.gz" }
          "idx") "f.tar.gz" none
        (urlCacheEntry envNoCompat (WheelCache.Index "idx") "f.tar.gz") st0).1 =
      Res.ok (BuiltWheelMetadata.from_cached wfBase cdBase
        (urlCacheEntry envNoCompat (WheelCache.Index "idx") "f.tar.gz")) ∧
    (download_and_build envNoCompat
        (SourceDist.Git "pkg" "http://g/r.git") st0).1 =
      Res.ok (BuiltWheelMetadata.mk
        ((gitCacheEntry envNoCompat "http://g/r.git" "abc123").dir ++
          ["pkg-1.0-py3-none-any.whl"])
        wfBase mdBase) :=
  C7_fresh_build_returned envNoCompat
    (SourceDist.Registry "pkg" { url := "http://x/f.tar.gz", filename := "f.tar.gz" } "idx")
    "f.tar.gz" none (WheelCache.Index "idx") st0
    "pkg" "http://g/r.git" "http://g/r.git" none
    { path := ["checkout"], precise := some "abc123" } "abc123"
    "pkg-1.0-py3-none-any.whl" wfBase mdBase
    rfl (fun _ _ _ => rfl) rfl (fun _ => rfl) rfl (by decide)
    rfl rfl rfl (by decide) rfl rfl rfl rfl rfl

/-- Claim C10: a Git fetch that completes successfully but reports no resolved
precise commit makes download_and_build panic through the expect on the
Option, instead of returning a SourceDistError. -/
theorem C10_precise_panic (env : Env) (nameG uG u2 : String) (sub : Option FsPath)
    (fetch : Fetch) (st : St)
    (hdg : env.directGit uG = Except.ok (u2, sub))
    (hgf : env.gitFetch u2 = Except.ok fetch)
    (hpr : fetch.precise = none) :
    (download_and_build env (SourceDist.Git nameG uG) st).1 =
      Res.panicked "Exact commit after checkout" := by
  unfold download_and_build git download_source_dist_git
  dsimp only
  rw [hdg]
  dsimp only
  rw [hgf]
  dsimp only
  unfold gitAfterFetch
  rw [hpr]

/-- Claim C10 witness: the theorem at a concrete fetch whose precise commit is
absent. -/
theorem C10_precise_panic_witness :
    (download_and_build envNoPrecise
        (SourceDist.Git "pkg" "http://g/r.git") st0).1 =
      Res.panicked "Exact commit after checkout" :=
  C10_precise_panic envNoPrecise
    "pkg" "http://g/r.git" "http://g/r.git" none
    { path := ["checkout"], precise := none } st0 rfl rfl rfl

end SourceDistSpec
